import Mathlib

/-!
Shallow embedding of the wire codec of the cassandra-rs repository
(src/protocol.rs, src/types.rs, src/errors.rs).

Byte streams are lists of Nat (each element a byte value below 256).
A Rust reader (`&mut T where T: Read`) is modelled as a state-passing
function that returns an outcome together with the not-yet-consumed
rest of the stream; the rest is returned even when the outcome is an
error, because a Rust reader keeps its position after a failed decode.
A Rust process-terminating panic is modelled by the explicit outcome
constructor `crash`, kept distinct from the recoverable `MyError`
values that the source returns through its `Result` type.
-/

/-- Error type of src/errors.rs: `MyError`, with an `Io` variant (the
payload of the underlying io error is dropped) and a `Protocol` variant
carrying a message string. -/
inductive MyError where
  | Io : MyError
  | Protocol : String → MyError
deriving DecidableEq

/-- Outcome of running a piece of decoding code: success, a recoverable
`MyError` (the Ok/Err of the Rust `Result`), or a process-terminating
panic modelled as `crash`. -/
inductive Outcome (α : Type) where
  | ok : α → Outcome α
  | err : MyError → Outcome α
  | crash : String → Outcome α
deriving DecidableEq

def Outcome.map (f : α → β) : Outcome α → Outcome β
  | .ok a => .ok (f a)
  | .err e => .err e
  | .crash m => .crash m

/-- Reader monad over a byte stream. -/
def M (α : Type) : Type := List Nat → Outcome α × List Nat

instance : Monad M where
  pure a := fun s => (.ok a, s)
  bind x f := fun s =>
    match x s with
    | (.ok a, s1) => f a s1
    | (.err e, s1) => (.err e, s1)
    | (.crash m, s1) => (.crash m, s1)

theorem M.bind_apply (x : M α) (f : α → M β) (s : List Nat) :
    (x >>= f) s =
      match x s with
      | (.ok a, s1) => f a s1
      | (.err e, s1) => (.err e, s1)
      | (.crash m, s1) => (.crash m, s1) := rfl

theorem M.pure_apply (a : α) (s : List Nat) : (pure a : M α) s = (.ok a, s) := rfl

/-- Rust `read_u8`: one byte, or an IO error at end of stream. -/
def readU8 : M Nat := fun s =>
  match s with
  | [] => (.err .Io, [])
  | b :: t => (.ok b, t)

/-- podio `read_exact(n)`: exactly n bytes; a short read consumes what is
available and fails with an IO error. -/
def readExact (n : Nat) : M (List Nat) := fun s =>
  if n ≤ s.length then (.ok (s.take n), s.drop n) else (.err .Io, [])

/-- Big-endian `read_u16`. -/
def readU16 : M Nat := do
  let a ← readU8
  let b ← readU8
  pure (a * 256 + b)

/-- Big-endian `read_u32`. -/
def readU32 : M Nat := do
  let a ← readU16
  let b ← readU16
  pure (a * 65536 + b)

/-- Reinterpret a u32 bit pattern as a signed i32 value. -/
def i32ofBits (n : Nat) : Int :=
  if n < 2147483648 then (n : Int) else (n : Int) - 4294967296

/-- Big-endian `read_i32`. -/
def readI32 : M Int := do
  let n ← readU32
  pure (i32ofBits n)

/-- Return `Err(MyError::Protocol(msg))`. -/
def throwProtocol (msg : String) : M α := fun s => (.err (.Protocol msg), s)

/-- A Rust panic inside decoding code. -/
def crashM (msg : String) : M α := fun s => (.crash msg, s)

/-- Big-endian bytes of a u16 value (`write_u16::<BigEndian>`). -/
def u16be (n : Nat) : List Nat := [n / 256 % 256, n % 256]

/-- Big-endian bytes of a u32 value (`write_u32::<BigEndian>`). -/
def u32be (n : Nat) : List Nat :=
  [n / 16777216 % 256, n / 65536 % 256, n / 256 % 256, n % 256]

/-- Lower-case hex digit, for messages built with a `\x7b:02x\x7d` format. -/
def hexDigitL (n : Nat) : String :=
  if n = 0 then "0" else if n = 1 then "1" else if n = 2 then "2"
  else if n = 3 then "3" else if n = 4 then "4" else if n = 5 then "5"
  else if n = 6 then "6" else if n = 7 then "7" else if n = 8 then "8"
  else if n = 9 then "9" else if n = 10 then "a" else if n = 11 then "b"
  else if n = 12 then "c" else if n = 13 then "d" else if n = 14 then "e"
  else "f"

/-- Upper-case hex digit, for messages built with a `\x7b:04X\x7d` format. -/
def hexDigitU (n : Nat) : String :=
  if n = 0 then "0" else if n = 1 then "1" else if n = 2 then "2"
  else if n = 3 then "3" else if n = 4 then "4" else if n = 5 then "5"
  else if n = 6 then "6" else if n = 7 then "7" else if n = 8 then "8"
  else if n = 9 then "9" else if n = 10 then "A" else if n = 11 then "B"
  else if n = 12 then "C" else if n = 13 then "D" else if n = 14 then "E"
  else "F"

/-- Two lower-case hex digits of a byte. -/
def hex2L (n : Nat) : String := hexDigitL (n / 16 % 16) ++ hexDigitL (n % 16)

/-- Upper-case hex of a u32 bit pattern, padded to at least 4 digits,
matching the Rust format specifier `\x7b:04X\x7d`. -/
def hexUpperPad4 (n : Nat) : String :=
  let ds := [n / 268435456 % 16, n / 16777216 % 16, n / 1048576 % 16,
             n / 65536 % 16, n / 4096 % 16, n / 256 % 16, n / 16 % 16, n % 16]
  String.join (((ds.take 4).dropWhile (· = 0) ++ ds.drop 4).map hexDigitU)

/-- A UTF-8 continuation byte. -/
def utf8Cont (b : Nat) : Bool := 0x80 ≤ b && b ≤ 0xBF

/-- Valid tail bytes of a three-byte UTF-8 sequence with lead byte b. -/
def utf8Tail3Ok (b c1 c2 : Nat) : Bool :=
  (if b = 0xE0 then 0xA0 ≤ c1 && c1 ≤ 0xBF
   else if b = 0xED then 0x80 ≤ c1 && c1 ≤ 0x9F
   else utf8Cont c1) && utf8Cont c2

/-- Valid tail bytes of a four-byte UTF-8 sequence with lead byte b. -/
def utf8Tail4Ok (b c1 c2 c3 : Nat) : Bool :=
  (if b = 0xF0 then 0x90 ≤ c1 && c1 ≤ 0xBF
   else if b = 0xF4 then 0x80 ≤ c1 && c1 ≤ 0x8F
   else utf8Cont c1) && utf8Cont c2 && utf8Cont c3

/-- UTF-8 validity of a byte sequence, with an explicit fuel argument so
that the recursion is structural (every step consumes at least one byte,
so fuel equal to the list length always suffices). -/
def validUtf8F : Nat → List Nat → Bool
  | _, [] => true
  | 0, _ :: _ => false
  | fuel + 1, b :: rest =>
    if b ≤ 0x7F then validUtf8F fuel rest
    else if b < 0xC2 then false
    else if b ≤ 0xDF then
      match rest with
      | c1 :: r => utf8Cont c1 && validUtf8F fuel r
      | [] => false
    else if b ≤ 0xEF then
      match rest with
      | c1 :: c2 :: r => utf8Tail3Ok b c1 c2 && validUtf8F fuel r
      | _ => false
    else if b ≤ 0xF4 then
      match rest with
      | c1 :: c2 :: c3 :: r => utf8Tail4Ok b c1 c2 c3 && validUtf8F fuel r
      | _ => false
    else false

/-- UTF-8 validity of a byte sequence, as checked by `String::from_utf8`. -/
def validUtf8 (l : List Nat) : Bool := validUtf8F l.length l

/-- A decoded Rust `String`, modelled as its UTF-8 byte sequence. -/
abbrev WireStr := List Nat

/-- Approximate rendering of decoded string bytes into a Lean string, used
only to build error message text (`format!` interpolation of a String). -/
def strOfBytes (s : WireStr) : String := String.mk (s.map Char.ofNat)

/-- `String::decode` (protocol.rs, FromWire for String): u16 BE length,
that many bytes, UTF-8 validation. -/
def stringDecode : M WireStr := do
  let len ← readU16
  let bytes ← readExact len
  if validUtf8 bytes then pure bytes
  else throwProtocol "invalid utf-8 sequence"

/-- `&str::encode` (protocol.rs, ToWire for &str): writes `self.len() as u16`
(a truncating cast, hence the modulus) followed by all of the string bytes.
The source returns `Result<()>` but can only fail if the underlying writer
fails; writing into a byte buffer always succeeds, and no length check is
performed. -/
def strEncode (s : WireStr) : List Nat := u16be (s.length % 65536) ++ s

/-- Frame version byte (protocol.rs `Version`). -/
inductive Version where
  | Request : Version
  | Response : Version
deriving DecidableEq

/-- `Version::encode`: Request = 0x03, Response = 0x83. -/
def Version.encodeBytes : Version → List Nat
  | .Request => [0x03]
  | .Response => [0x83]

/-- `Version::decode`. -/
def Version.decode : M Version := do
  let version ← readU8
  if version = 0x03 then pure Version.Request
  else if version = 0x83 then pure Version.Response
  else throwProtocol ("unknown version header: " ++ hex2L version)

/-- Frame flags byte (protocol.rs `Flags`). -/
structure Flags where
  compression : Bool
  tracing : Bool
deriving DecidableEq

/-- `Flags::encode`: bit 0 compression, bit 1 tracing. -/
def Flags.encodeBytes (f : Flags) : List Nat :=
  [(if f.compression then 0x01 else 0x00) ||| (if f.tracing then 0x02 else 0x00)]

/-- `Flags::decode`. -/
def Flags.decode : M Flags := do
  let flags ← readU8
  pure ⟨decide (0 < flags &&& 0x01), decide (0 < flags &&& 0x02)⟩

/-- Frame opcode (protocol.rs `opcodes!` macro expansion). -/
inductive Opcode where
  | Error | Startup | Ready | Authenticate | Options | Supported
  | Query | Result | Prepare | Execute | Register | Event | Batch
  | AuthChallenge | AuthResponse | AuthSuccess
deriving DecidableEq

/-- One-byte tag of each opcode. -/
def Opcode.tag : Opcode → Nat
  | .Error => 0x00
  | .Startup => 0x01
  | .Ready => 0x02
  | .Authenticate => 0x03
  | .Options => 0x05
  | .Supported => 0x06
  | .Query => 0x07
  | .Result => 0x08
  | .Prepare => 0x09
  | .Execute => 0x0A
  | .Register => 0x0B
  | .Event => 0x0C
  | .Batch => 0x0D
  | .AuthChallenge => 0x0E
  | .AuthResponse => 0x0F
  | .AuthSuccess => 0x10

/-- `Opcode::encode`. -/
def Opcode.encodeBytes (o : Opcode) : List Nat := [o.tag]

/-- `Opcode::decode`. -/
def Opcode.decode : M Opcode := do
  let opcode ← readU8
  if opcode = 0x00 then pure Opcode.Error
  else if opcode = 0x01 then pure Opcode.Startup
  else if opcode = 0x02 then pure Opcode.Ready
  else if opcode = 0x03 then pure Opcode.Authenticate
  else if opcode = 0x05 then pure Opcode.Options
  else if opcode = 0x06 then pure Opcode.Supported
  else if opcode = 0x07 then pure Opcode.Query
  else if opcode = 0x08 then pure Opcode.Result
  else if opcode = 0x09 then pure Opcode.Prepare
  else if opcode = 0x0A then pure Opcode.Execute
  else if opcode = 0x0B then pure Opcode.Register
  else if opcode = 0x0C then pure Opcode.Event
  else if opcode = 0x0D then pure Opcode.Batch
  else if opcode = 0x0E then pure Opcode.AuthChallenge
  else if opcode = 0x0F then pure Opcode.AuthResponse
  else if opcode = 0x10 then pure Opcode.AuthSuccess
  else throwProtocol ("Unknown opcode: " ++ hex2L opcode)

/-- Frame header (protocol.rs `Header`): version, flags, stream id (u16),
opcode, body length (u32). Stream and length are Nat here; the Rust field
types bound them below 2^16 and 2^32 respectively. -/
structure Header where
  version : Version
  flags : Flags
  stream : Nat
  opcode : Opcode
  length : Nat
deriving DecidableEq

/-- `Header::encode`: version, flags, stream id (u16 BE), opcode, body
length (u32 BE) — 9 bytes in total. -/
def Header.encode (h : Header) : List Nat :=
  h.version.encodeBytes ++ h.flags.encodeBytes ++ u16be h.stream ++
    h.opcode.encodeBytes ++ u32be h.length

/-- `Header::decode`: reads the 9 header bytes, and when the decoded opcode
is Error additionally consumes a u32 error code and a length-prefixed
message from the stream and fails with a protocol error instead of
returning the header. -/
def Header.decode : M Header := do
  let version ← Version.decode
  let flags ← Flags.decode
  let stream ← readU16
  let opcode ← Opcode.decode
  let length ← readU32
  if opcode = Opcode.Error then do
    let code ← readU32
    let message ← stringDecode
    throwProtocol ("Error 0x" ++ hexUpperPad4 code ++ ": " ++ strOfBytes message)
  else
    pure ⟨version, flags, stream, opcode, length⟩

/-- Result kind tag of a Result frame body (protocol.rs `ResultKind`). -/
inductive ResultKind where
  | Void | Rows | SetKeyspace | Prepared | SchemaChange
deriving DecidableEq

/-- Debug rendering of a result kind, used by `format!` with `\x7b:?\x7d`. -/
def ResultKind.debugStr : ResultKind → String
  | .Void => "Void"
  | .Rows => "Rows"
  | .SetKeyspace => "SetKeyspace"
  | .Prepared => "Prepared"
  | .SchemaChange => "SchemaChange"

/-- `ResultKind::decode`: a 4-byte big-endian int; tags 1 to 5 are known,
anything else is a protocol error whose message shows the bit pattern in
upper-case hex. The source reads an i32 and matches on the small positive
literals, which coincides with matching on the raw u32 bit pattern. -/
def ResultKind.decode : M ResultKind := do
  let kind ← readU32
  if kind = 0x0001 then pure ResultKind.Void
  else if kind = 0x0002 then pure ResultKind.Rows
  else if kind = 0x0003 then pure ResultKind.SetKeyspace
  else if kind = 0x0004 then pure ResultKind.Prepared
  else if kind = 0x0005 then pure ResultKind.SchemaChange
  else throwProtocol ("Unknown result kind: 0x" ++ hexUpperPad4 kind)

/-- Result flags of a Rows body (protocol.rs `ResultFlags`). -/
structure ResultFlags where
  global_table_spec : Bool
  has_more_pages : Bool
  no_metadata : Bool
deriving DecidableEq

/-- `ResultFlags::decode`: a 4-byte big-endian bitmask. -/
def ResultFlags.decode : M ResultFlags := do
  let flags ← readU32
  pure ⟨decide (0 < flags &&& 0x01), decide (0 < flags &&& 0x02),
        decide (0 < flags &&& 0x04)⟩

/-- Keyspace and table of a result (protocol.rs `TableSpec`). -/
structure TableSpec where
  keyspace : WireStr
  table : WireStr
deriving DecidableEq

/-- `TableSpec::decode`: two wire strings. -/
def TableSpec.decode : M TableSpec := do
  let keyspace ← stringDecode
  let table ← stringDecode
  pure ⟨keyspace, table⟩

/-- Column type tags (types.rs `CQLType`). The Rust enum carries no type
parameters: List, Map and Set are bare tags, so a decoded composite type
does not record its element types. -/
inductive CQLType where
  | Custom | Ascii | Bigint | Blob | Boolean | Counter | Decimal
  | Double | Float | Int | Timestamp | Uuid | Varchar | Varint
  | Timeuuid | Inet | List | Map | Set | UDT | Tuple
deriving DecidableEq

/-- `CQLType::decode` (protocol.rs, FromWire for CQLType), written with an
explicit fuel argument because the recursive calls consume the stream
rather than a structural argument. Each recursion level consumes at least
two bytes first, so fuel equal to the stream length always suffices and
the fuel-exhaustion branch is unreachable from the wrapper below. -/
def CQLType.decodeF : Nat → M CQLType
  | 0 => throwProtocol "type descriptor recursion limit"
  | fuel + 1 => do
    let option ← readU16
    if option = 0x0000 then do
      let _ ← stringDecode
      pure CQLType.Custom
    else if option = 0x0001 then pure CQLType.Ascii
    else if option = 0x0002 then pure CQLType.Bigint
    else if option = 0x0003 then pure CQLType.Blob
    else if option = 0x0004 then pure CQLType.Boolean
    else if option = 0x0005 then pure CQLType.Counter
    else if option = 0x0006 then pure CQLType.Decimal
    else if option = 0x0007 then pure CQLType.Double
    else if option = 0x0008 then pure CQLType.Float
    else if option = 0x0009 then pure CQLType.Int
    else if option = 0x000B then pure CQLType.Timestamp
    else if option = 0x000C then pure CQLType.Uuid
    else if option = 0x000D then pure CQLType.Varchar
    else if option = 0x000E then pure CQLType.Varint
    else if option = 0x000F then pure CQLType.Timeuuid
    else if option = 0x0010 then pure CQLType.Inet
    else if option = 0x0020 then do
      let _ ← CQLType.decodeF fuel
      pure CQLType.List
    else if option = 0x0021 then do
      let _ ← CQLType.decodeF fuel
      let _ ← CQLType.decodeF fuel
      pure CQLType.Map
    else if option = 0x0022 then do
      let _ ← CQLType.decodeF fuel
      pure CQLType.Set
    else if option = 0x0030 then
      throwProtocol "UDTs are not currently supported"
    else if option = 0x0031 then
      throwProtocol "Tuples are not currently supported"
    else throwProtocol ("unknown type identifier: 0x" ++ hexUpperPad4 option)

/-- `CQLType::decode`, with the always-sufficient fuel filled in. -/
def CQLType.decode : M CQLType := fun s => CQLType.decodeF s.length s

/-- Column metadata of a Rows result (protocol.rs `ColumnSpec`). -/
structure ColumnSpec where
  table_spec : TableSpec
  name : WireStr
  datatype : CQLType
deriving DecidableEq

/-- Model of `std::collections::HashMap` insertion: replacing the value of
an existing key in place, otherwise adding a new binding. Iteration order
of the Rust container is arbitrary; only lookup is relied upon. -/
def hmInsert (k : WireStr) (v : List Nat) : List (WireStr × List Nat) → List (WireStr × List Nat)
  | [] => [(k, v)]
  | (k1, v1) :: t => if k1 = k then (k, v) :: t else (k1, v1) :: hmInsert k v t

/-- Model of `HashMap::get`. -/
def hmLookup (k : WireStr) : List (WireStr × List Nat) → Option (List Nat)
  | [] => none
  | (k1, v1) :: t => if k1 = k then some v1 else hmLookup k t

/-- One decoded row (protocol.rs `Row`): a HashMap from column name to the
opaque column payload. -/
structure Row where
  columns : List (WireStr × List Nat)
deriving DecidableEq

/-- The column-spec loop of `QueryResult::decode` (protocol.rs lines
360-373): for each of n columns, take the global table spec when the flag
is set (unwrapping the option, a panic when it is `None`) or decode a
fresh one otherwise, then decode the column name and its type. -/
def decodeColumnSpecsLoop (flag : Bool) (global : Option TableSpec) : Nat → M (List ColumnSpec)
  | 0 => pure []
  | n + 1 => do
    let ts ← if flag then
        match global with
        | some g => pure g
        | none => crashM "called Option::unwrap on a None value"
      else TableSpec.decode
    let name ← stringDecode
    let datatype ← CQLType.decode
    let rest ← decodeColumnSpecsLoop flag global n
    pure (⟨ts, name, datatype⟩ :: rest)

/-- The per-row column loop of `QueryResult::decode` (protocol.rs lines
377-386): for each column spec, read an i32 length; on a positive length
read that many bytes, otherwise (zero or negative, the NULL and legacy
empty cases) store an empty payload. -/
def decodeRowColumns (acc : List (WireStr × List Nat)) : List ColumnSpec → M (List (WireStr × List Nat))
  | [] => pure acc
  | spec :: rest => do
    let size ← readI32
    if 0 < size then do
      let bytes ← readExact size.toNat
      decodeRowColumns (hmInsert spec.name bytes acc) rest
    else
      decodeRowColumns (hmInsert spec.name [] acc) rest

/-- The row loop of `QueryResult::decode` (protocol.rs lines 375-388). -/
def decodeRowsLoop (specs : List ColumnSpec) : Nat → M (List Row)
  | 0 => pure []
  | n + 1 => do
    let columns ← decodeRowColumns [] specs
    let rest ← decodeRowsLoop specs n
    pure (⟨columns⟩ :: rest)

/-- A decoded Rows result (protocol.rs `QueryResult`). -/
structure QueryResult where
  header : Header
  kind : ResultKind
  flags : ResultFlags
  table_spec : Option TableSpec
  rows : List Row
deriving DecidableEq

/-- Body part of `QueryResult::decode`, running over the body cursor: kind
(a panic when it is not Rows), flags (an error when no_metadata is set; the
has_more_pages warning is only a println), column count, optional global
table spec, column specs, row count, rows. -/
def QueryResult.decodeBody (h : Header) : M QueryResult := do
  let kind ← ResultKind.decode
  let _ ← if kind ≠ ResultKind.Rows then
      crashM "Parsing for result of kind \x7b:?\x7d is unimplemented"
    else pure ()
  let flags ← ResultFlags.decode
  let _ ← if flags.no_metadata then
      throwProtocol "Parsing results with no_metadata set is unimplemented"
    else pure ()
  let column_count ← readI32
  let global_table_spec ← if flags.global_table_spec then do
      let t ← TableSpec.decode
      pure (some t)
    else pure (none : Option TableSpec)
  let column_specs ← decodeColumnSpecsLoop flags.global_table_spec global_table_spec column_count.toNat
  let row_count ← readI32
  let rows ← decodeRowsLoop column_specs row_count.toNat
  pure ⟨h, kind, flags, global_table_spec, rows⟩

/-- Run a decoder over a separate body buffer (the `Cursor::new` pattern):
whatever is left in the body buffer afterwards is dropped, and the outer
stream position is unchanged. -/
def onBody (m : M α) (body : List Nat) : M α := fun s => ((m body).1, s)

/-- `QueryResult::decode` (protocol.rs, FromWire for QueryResult): decode
the header, read exactly `header.length` bytes from the transport as the
body, then decode the body from its own cursor. -/
def QueryResult.decode : M QueryResult := do
  let h ← Header.decode
  let body ← readExact h.length
  onBody (QueryResult.decodeBody h) body

/-- A decoded non-row result (protocol.rs `NonRowResult`). -/
structure NonRowResult where
  header : Header
  kind : ResultKind
deriving DecidableEq

/-- Body part of `NonRowResult::decode`: the kind must be SchemaChange or
Void, anything else is a recoverable protocol error. -/
def NonRowResult.decodeBody (h : Header) : M NonRowResult := do
  let kind ← ResultKind.decode
  if kind = ResultKind.SchemaChange ∨ kind = ResultKind.Void then
    pure ⟨h, kind⟩
  else
    throwProtocol ("Unexpected result kind " ++ kind.debugStr)

/-- `NonRowResult::decode` (protocol.rs, FromWire for NonRowResult). -/
def NonRowResult.decode : M NonRowResult := do
  let h ← Header.decode
  let body ← readExact h.length
  onBody (NonRowResult.decodeBody h) body

/-- `i32::parse` (types.rs, FromCQL for i32): asserts that the buffer holds
exactly 4 bytes (a panic otherwise) and reads a big-endian i32. -/
def i32Parse (buf : List Nat) : Outcome Int :=
  match buf with
  | [b0, b1, b2, b3] => .ok (i32ofBits (((b0 * 256 + b1) * 256 + b2) * 256 + b3))
  | _ => .crash "assertion failed: buf.len() == 4"

/-- `String::parse` (types.rs, FromCQL for String): `String::from_utf8`
followed by unwrap, a panic on invalid UTF-8. -/
def stringParse (buf : List Nat) : Outcome WireStr :=
  if validUtf8 buf then .ok buf
  else .crash "called Result::unwrap on an Err value"

/-- `bool::parse` (types.rs, FromCQL for bool): indexes byte 0 (a panic on
an empty buffer); zero is false, anything else true. -/
def boolParse (buf : List Nat) : Outcome Bool :=
  match buf with
  | [] => .crash "index out of bounds: the len is 0 but the index is 0"
  | b :: _ => .ok (b != 0)

/-- `Row::get` (protocol.rs lines 404-413): unwraps the HashMap lookup (a
panic when the column name is absent), returns `None` for an empty stored
payload and otherwise parses the bytes at the type requested by the call
site. The parse itself may panic, which propagates. -/
def Row.get (parse : List Nat → Outcome α) (row : Row) (col : WireStr) : Outcome (Option α) :=
  match hmLookup col row.columns with
  | none => .crash "called Option::unwrap on a None value"
  | some bytes =>
    if 0 < bytes.length then (parse bytes).map some
    else .ok none

/-- Comparison definition for the refinement claim about the global table
spec, written from the spec words alone: a column-metadata loop that
consumes no table-spec bytes at all and decodes exactly one (name, type)
pair per column. -/
def specNameTypePairsLoop : Nat → M (List (WireStr × CQLType))
  | 0 => pure []
  | n + 1 => do
    let name ← stringDecode
    let datatype ← CQLType.decode
    let rest ← specNameTypePairsLoop n
    pure ((name, datatype) :: rest)

/-- Comparison definition for the refinement claim about the per-column
table spec, written from the spec words alone: a column-metadata loop that
decodes exactly one TableSpec, then one (name, type) pair, per column. -/
def specTableSpecPerColumnLoop : Nat → M (List ColumnSpec)
  | 0 => pure []
  | n + 1 => do
    let ts ← TableSpec.decode
    let name ← stringDecode
    let datatype ← CQLType.decode
    let rest ← specTableSpecPerColumnLoop n
    pure (⟨ts, name, datatype⟩ :: rest)

/-! Helper lemmas about the primitive readers. -/

theorem readU8_cons (b : Nat) (rest : List Nat) : readU8 (b :: rest) = (.ok b, rest) := rfl

theorem readU16_append (n : Nat) (rest : List Nat) (h : n < 65536) :
    readU16 (u16be n ++ rest) = (.ok n, rest) := by
  simp only [readU16, u16be, List.cons_append, List.nil_append, M.bind_apply,
    readU8_cons, M.pure_apply]
  have : n / 256 % 256 * 256 + n % 256 = n := by omega
  rw [this]

theorem readU32_append (n : Nat) (rest : List Nat) (h : n < 4294967296) :
    readU32 (u32be n ++ rest) = (.ok n, rest) := by
  have h1 : u32be n ++ rest = u16be (n / 65536) ++ (u16be (n % 65536) ++ rest) := by
    simp only [u32be, u16be, List.cons_append, List.nil_append]
    have e1 : n / 65536 / 256 % 256 = n / 16777216 % 256 := by omega
    have e2 : n / 65536 % 256 = n / 65536 % 256 := rfl
    have e3 : n % 65536 / 256 % 256 = n / 256 % 256 := by omega
    have e4 : n % 65536 % 256 = n % 256 := by omega
    rw [e1, e3, e4]
  rw [h1]
  simp only [readU32, M.bind_apply, M.pure_apply,
    readU16_append _ _ (show n / 65536 < 65536 by omega),
    readU16_append _ _ (show n % 65536 < 65536 by omega)]
  have : n / 65536 * 65536 + n % 65536 = n := by omega
  rw [this]

theorem readExact_append (a rest : List Nat) :
    readExact a.length (a ++ rest) = (.ok a, rest) := by
  simp [readExact, List.take_left, List.drop_left]

theorem readExact_zero (s : List Nat) : readExact 0 s = (.ok [], s) := by
  simp [readExact]

theorem readI32_append (n : Nat) (rest : List Nat) (h : n < 4294967296) :
    readI32 (u32be n ++ rest) = (.ok (i32ofBits n), rest) := by
  simp only [readI32, M.bind_apply, M.pure_apply, readU32_append _ _ h]

theorem version_decode_encode (v : Version) (rest : List Nat) :
    Version.decode (v.encodeBytes ++ rest) = (.ok v, rest) := by
  cases v <;> rfl

theorem flags_decode_encode (f : Flags) (rest : List Nat) :
    Flags.decode (f.encodeBytes ++ rest) = (.ok f, rest) := by
  rcases f with ⟨c, t⟩
  cases c <;> cases t <;> rfl

theorem opcode_decode_encode (o : Opcode) (rest : List Nat) :
    Opcode.decode (o.encodeBytes ++ rest) = (.ok o, rest) := by
  cases o <;> rfl

/-- Claim C3 (counterexample): a header whose opcode is Error does not
round-trip: after the 9 encoded bytes, `Header::decode` goes on to read an
error code and message, hits the end of the buffer, and fails with an IO
error instead of returning the header. -/
theorem c3_error_opcode_breaks_roundtrip :
    Header.decode (Header.encode ⟨Version.Request, ⟨false, false⟩, 0, Opcode.Error, 0⟩) =
      (Outcome.err MyError.Io, []) ∧
    Header.decode (Header.encode ⟨Version.Request, ⟨false, false⟩, 0, Opcode.Error, 0⟩) ≠
      (Outcome.ok ⟨Version.Request, ⟨false, false⟩, 0, Opcode.Error, 0⟩, []) := by
  exact ⟨rfl, by decide⟩

/-- Claim C3 (amended): for every frame header whose opcode is not Error
(and whose stream id and body length fit in u16 and u32, as the Rust field
types force), decoding the encoded bytes yields the header back and
consumes exactly the 9 encoded bytes. -/
theorem c3_header_roundtrip (h : Header) (rest : List Nat)
    (hop : h.opcode ≠ Opcode.Error) (hs : h.stream < 65536) (hl : h.length < 4294967296) :
    Header.decode (Header.encode h ++ rest) = (.ok h, rest) := by
  rcases h with ⟨v, f, st, op, len⟩
  simp only [Header.encode, List.append_assoc]
  simp only [Opcode.encodeBytes]
  simp only [Header.decode, M.bind_apply, M.pure_apply, version_decode_encode,
    flags_decode_encode, readU16_append _ _ hs, List.singleton_append]
  have hop' : Opcode.decode (op.tag :: (u32be len ++ rest)) = (.ok op, u32be len ++ rest) :=
    opcode_decode_encode op (u32be len ++ rest)
  simp only [hop', readU32_append _ _ hl]
  rw [if_neg hop]
  rfl

/-- Claim C3 (witness): the amended round-trip at a concrete header. -/
theorem c3_header_roundtrip_witness :
    Header.decode (Header.encode ⟨Version.Response, ⟨true, false⟩, 513, Opcode.Result, 70000⟩ ++ [7]) =
      (Outcome.ok ⟨Version.Response, ⟨true, false⟩, 513, Opcode.Result, 70000⟩, [7]) :=
  c3_header_roundtrip _ [7] (by decide) (by decide) (by decide)

/-- Claim C4 (counterexample): a string of 65536 bytes is not rejected at
encode time: `self.len() as u16` silently wraps to 0, so the encoder emits
output whose length prefix is zero followed by all 65536 bytes, and a
decoder reading that output back reads a declared length of 0 rather than
65536, so the round-trip fails instead of the encode being rejected. -/
theorem c4_overlong_string_not_rejected :
    strEncode (List.replicate 65536 97) = [0, 0] ++ List.replicate 65536 97 ∧
    readU16 (strEncode (List.replicate 65536 97)) = (.ok 0, List.replicate 65536 97) := by
  have hlen : (List.replicate 65536 (97 : Nat)).length = 65536 := List.length_replicate 65536 97
  have he : strEncode (List.replicate 65536 97) = [0, 0] ++ List.replicate 65536 97 := by
    rw [strEncode, hlen]
    exact congrArg (fun l => l ++ List.replicate 65536 97) (by norm_num [u16be])
  refine ⟨he, ?_⟩
  rw [he, show ([0, 0] : List Nat) = u16be 0 from rfl]
  exact readU16_append 0 _ (by omega)

/-- Claim C4 (amended): for every valid UTF-8 byte string of at most 65535
bytes, decoding the encoded wire string returns the same string and leaves
the rest of the stream untouched. Longer strings are not rejected at
encode time: the u16 length prefix wraps modulo 65536 (see the
counterexample), so only strings up to 65535 bytes round-trip. -/
theorem c4_string_roundtrip (s : WireStr) (rest : List Nat)
    (hv : validUtf8 s = true) (hl : s.length ≤ 65535) :
    stringDecode (strEncode s ++ rest) = (.ok s, rest) := by
  have hm : s.length % 65536 = s.length := Nat.mod_eq_of_lt (by omega)
  simp only [strEncode, hm, List.append_assoc]
  simp only [stringDecode, M.bind_apply, M.pure_apply,
    readU16_append _ _ (by omega : s.length < 65536), readExact_append]
  simp [hv, M.pure_apply]

/-- Claim C4 (witness): the round-trip at a concrete two-byte string. -/
theorem c4_string_roundtrip_witness :
    stringDecode (strEncode [104, 105] ++ [1, 2]) = (.ok [104, 105], [1, 2]) :=
  c4_string_roundtrip [104, 105] [1, 2] (by decide) (by decide)

/-- Claim C5 (counterexample): the decoded value for the List-of-Int
descriptor is the bare tag `CQLType.List` and is identical to the decoded
value for a List-of-Varchar descriptor: the element type is consumed but
discarded, so the decoder does not map `[0x00,0x20,0x00,0x09]` to a value
carrying the element type Int. -/
theorem c5_element_type_discarded :
    CQLType.decode [0x00, 0x20, 0x00, 0x09] = CQLType.decode [0x00, 0x20, 0x00, 0x0D] ∧
    CQLType.decode [0x00, 0x20, 0x00, 0x09] = (.ok CQLType.List, []) := by
  decide

/-- Claim C5 (amended): the type descriptor decoder consumes the
List-of-Int descriptor completely and yields the bare tag List, consumes
the Map descriptor (key type before value type) completely and yields the
bare tag Map, and fails on the UDT tag 0x30 with the unsupported-feature
protocol error without consuming any bytes beyond the two tag bytes; the
nested element descriptors are decoded but their identities are discarded.
The key-before-value order shows in the last conjunct: a Map whose key
slot holds the UDT tag fails with the UDT error before the value type is
touched. -/
theorem c5_type_descriptor_decode :
    CQLType.decode [0x00, 0x20, 0x00, 0x09] = (.ok CQLType.List, []) ∧
    CQLType.decode [0x00, 0x21, 0x00, 0x0D, 0x00, 0x09] = (.ok CQLType.Map, []) ∧
    (∀ rest : List Nat, CQLType.decode (0x00 :: 0x30 :: rest) =
      (.err (.Protocol "UDTs are not currently supported"), rest)) ∧
    CQLType.decode [0x00, 0x21, 0x00, 0x30, 0x00, 0x09] =
      (.err (.Protocol "UDTs are not currently supported"), [0x00, 0x09]) := by
  refine ⟨by decide, by decide, ?_, by decide⟩
  intro rest
  simp only [CQLType.decode, List.length_cons]
  simp [CQLType.decodeF, M.bind_apply, M.pure_apply, readU16, readU8, throwProtocol]

/-- Claim C5 (witness): the universally quantified UDT conjunct applied at
a concrete non-empty remainder. -/
theorem c5_type_descriptor_decode_witness :
    CQLType.decode (0x00 :: 0x30 :: [9, 9]) =
      (.err (.Protocol "UDTs are not currently supported"), [9, 9]) :=
  c5_type_descriptor_decode.2.2.1 [9, 9]

/-- Claim C1 (counterexample): a structurally valid Result frame whose
kind is Void, decoded through the row-producing path, does not fail with
a recoverable unsupported-kind error value: it panics (the source line 345
`panic!`), terminating the process. -/
theorem c1_row_path_panics_on_void :
    QueryResult.decode ([0x83, 0, 0, 0, 0x08, 0, 0, 0, 4] ++ [0, 0, 0, 1]) =
      (.crash "Parsing for result of kind \x7b:?\x7d is unimplemented", []) := by
  decide

/-- Claim C1 (amended): on the row-producing path, every body whose result
kind decodes to something other than Rows makes `QueryResult::decode`
panic (a process-terminating failure, not a recoverable error value);
on the non-row path, every body whose result kind decodes to something
outside \x7bVoid, SchemaChange\x7d makes `NonRowResult::decode` fail with
the distinct, recoverable unsupported-kind protocol error value. -/
theorem c1_unsupported_kind_behaviour :
    (∀ (h : Header) (body s1 : List Nat) (k : ResultKind),
      ResultKind.decode body = (.ok k, s1) → k ≠ ResultKind.Rows →
      QueryResult.decodeBody h body =
        (.crash "Parsing for result of kind \x7b:?\x7d is unimplemented", s1)) ∧
    (∀ (h : Header) (body s1 : List Nat) (k : ResultKind),
      ResultKind.decode body = (.ok k, s1) →
      k ≠ ResultKind.Void → k ≠ ResultKind.SchemaChange →
      NonRowResult.decodeBody h body =
        (.err (.Protocol ("Unexpected result kind " ++ k.debugStr)), s1)) := by
  constructor
  · intro h body s1 k hdec hk
    simp only [QueryResult.decodeBody, M.bind_apply, hdec]
    rw [if_pos hk]
    simp [crashM, M.bind_apply]
  · intro h body s1 k hdec hv hs
    simp only [NonRowResult.decodeBody, M.bind_apply, hdec]
    rw [if_neg (not_or.mpr ⟨hs, hv⟩)]
    simp [throwProtocol]

/-- Claim C1 (witness): the amended statement at concrete bodies — a Void
body on the row path panics, a Rows body on the non-row path yields the
recoverable protocol error. -/
theorem c1_unsupported_kind_witness :
    QueryResult.decodeBody ⟨Version.Response, ⟨false, false⟩, 0, Opcode.Result, 4⟩ [0, 0, 0, 1] =
      (.crash "Parsing for result of kind \x7b:?\x7d is unimplemented", []) ∧
    NonRowResult.decodeBody ⟨Version.Response, ⟨false, false⟩, 0, Opcode.Result, 4⟩ [0, 0, 0, 2] =
      (.err (.Protocol ("Unexpected result kind " ++ ResultKind.debugStr ResultKind.Rows)), []) :=
  ⟨c1_unsupported_kind_behaviour.1 _ [0, 0, 0, 1] [] ResultKind.Void (by decide) (by decide),
   c1_unsupported_kind_behaviour.2 _ [0, 0, 0, 2] [] ResultKind.Rows (by decide) (by decide) (by decide)⟩

/-- Claim C2 (counterexample): two complete Rows frames that differ only
in the length prefix of their single column value — minus one (NULL,
bytes FF FF FF FF) in the first, zero (a present zero-length value) in
the second — decode to exactly the same QueryResult, whose single row
stores the empty payload for the column; the NULL entry is therefore not
distinguishable from the present zero-length entry. -/
theorem c2_null_indistinguishable_from_empty :
    QueryResult.decode ([0x83, 0, 0, 0, 8, 0, 0, 0, 31] ++
      ([0, 0, 0, 2] ++ [0, 0, 0, 1] ++ [0, 0, 0, 1] ++ [0, 1, 107] ++ [0, 1, 116] ++
       [0, 1, 97] ++ [0, 9] ++ [0, 0, 0, 1] ++ [255, 255, 255, 255])) =
    QueryResult.decode ([0x83, 0, 0, 0, 8, 0, 0, 0, 31] ++
      ([0, 0, 0, 2] ++ [0, 0, 0, 1] ++ [0, 0, 0, 1] ++ [0, 1, 107] ++ [0, 1, 116] ++
       [0, 1, 97] ++ [0, 9] ++ [0, 0, 0, 1] ++ [0, 0, 0, 0])) ∧
    QueryResult.decode ([0x83, 0, 0, 0, 8, 0, 0, 0, 31] ++
      ([0, 0, 0, 2] ++ [0, 0, 0, 1] ++ [0, 0, 0, 1] ++ [0, 1, 107] ++ [0, 1, 116] ++
       [0, 1, 97] ++ [0, 9] ++ [0, 0, 0, 1] ++ [255, 255, 255, 255])) =
      (.ok ⟨⟨Version.Response, ⟨false, false⟩, 0, Opcode.Result, 31⟩, ResultKind.Rows,
        ⟨true, false, false⟩, some ⟨[107], [116]⟩, [⟨[([97], [])]⟩]⟩, []) := by
  decide

/-- Claim C2 (amended): in the row loop, a column length prefix of minus
one (NULL) and a prefix of zero (a present empty value) produce exactly
the same row entry: both store the empty payload under the column name
(source lines 380-385 treat every non-positive size alike), so NULL is
represented but not distinguishable from a present zero-length value. -/
theorem c2_nonpositive_size_stores_empty (spec : ColumnSpec)
    (acc : List (WireStr × List Nat)) (rest : List Nat) :
    decodeRowColumns acc [spec] ([255, 255, 255, 255] ++ rest) =
      (.ok (hmInsert spec.name [] acc), rest) ∧
    decodeRowColumns acc [spec] ([0, 0, 0, 0] ++ rest) =
      (.ok (hmInsert spec.name [] acc), rest) := by
  constructor
  · rw [show ([255, 255, 255, 255] : List Nat) = u32be 4294967295 from rfl]
    simp only [decodeRowColumns, M.bind_apply, M.pure_apply,
      readI32_append 4294967295 rest (by omega)]
    rw [if_neg (by decide : ¬((0 : Int) < i32ofBits 4294967295))]
    simp only [decodeRowColumns, M.pure_apply]
  · rw [show ([0, 0, 0, 0] : List Nat) = u32be 0 from rfl]
    simp only [decodeRowColumns, M.bind_apply, M.pure_apply,
      readI32_append 0 rest (by omega)]
    rw [if_neg (by decide : ¬((0 : Int) < i32ofBits 0))]
    simp only [decodeRowColumns, M.pure_apply]

/-- Claim C2 (witness): the amended statement at a concrete column spec. -/
theorem c2_nonpositive_size_stores_empty_witness :
    decodeRowColumns [] [⟨⟨[107], [116]⟩, [97], CQLType.Int⟩] ([255, 255, 255, 255] ++ [5]) =
      (.ok [([97], [])], [5]) ∧
    decodeRowColumns [] [⟨⟨[107], [116]⟩, [97], CQLType.Int⟩] ([0, 0, 0, 0] ++ [5]) =
      (.ok [([97], [])], [5]) :=
  ⟨(c2_nonpositive_size_stores_empty ⟨⟨[107], [116]⟩, [97], CQLType.Int⟩ [] [5]).1,
   (c2_nonpositive_size_stores_empty ⟨⟨[107], [116]⟩, [97], CQLType.Int⟩ [] [5]).2⟩

theorem c6_aux_global (g : TableSpec) (n : Nat) (s : List Nat) :
    decodeColumnSpecsLoop true (some g) n s =
      (Outcome.map (List.map (fun p => (⟨g, p.1, p.2⟩ : ColumnSpec)))
        (specNameTypePairsLoop n s).1,
       (specNameTypePairsLoop n s).2) := by
  induction n generalizing s with
  | zero => rfl
  | succ n ih =>
    have hred : decodeColumnSpecsLoop true (some g) (n + 1) s = (do
        let name ← stringDecode
        let datatype ← CQLType.decode
        let rest ← decodeColumnSpecsLoop true (some g) n
        pure ((⟨g, name, datatype⟩ : ColumnSpec) :: rest)) s := rfl
    rw [hred]
    simp only [specNameTypePairsLoop, M.bind_apply, M.pure_apply]
    rcases h1 : stringDecode s with ⟨o1, s1⟩
    try rw [h1]
    cases o1 with
    | ok name =>
      dsimp only
      rcases h2 : CQLType.decode s1 with ⟨o2, s2⟩
      try rw [h2]
      cases o2 with
      | ok dt =>
        dsimp only
        rw [ih s2]
        rcases h3 : specNameTypePairsLoop n s2 with ⟨o3, s3⟩
        try rw [h3]
        cases o3 <;> simp [Outcome.map]
      | err e => simp [Outcome.map]
      | crash m => simp [Outcome.map]
    | err e => simp [Outcome.map]
    | crash m => simp [Outcome.map]

theorem c6_aux_per_column (n : Nat) (s : List Nat) :
    decodeColumnSpecsLoop false none n s = specTableSpecPerColumnLoop n s := by
  induction n generalizing s with
  | zero => rfl
  | succ n ih =>
    have hred : decodeColumnSpecsLoop false none (n + 1) s = (do
        let ts ← TableSpec.decode
        let name ← stringDecode
        let datatype ← CQLType.decode
        let rest ← decodeColumnSpecsLoop false none n
        pure ((⟨ts, name, datatype⟩ : ColumnSpec) :: rest)) s := rfl
    rw [hred]
    simp only [specTableSpecPerColumnLoop, M.bind_apply, M.pure_apply]
    rcases h0 : TableSpec.decode s with ⟨o0, s0⟩
    try rw [h0]
    cases o0 with
    | ok ts =>
      dsimp only
      rcases h1 : stringDecode s0 with ⟨o1, s1⟩
      try rw [h1]
      cases o1 with
      | ok name =>
        dsimp only
        rcases h2 : CQLType.decode s1 with ⟨o2, s2⟩
        try rw [h2]
        cases o2 with
        | ok dt =>
          dsimp only
          rw [ih s2]
        | err e => rfl
        | crash m => rfl
      | err e => rfl
      | crash m => rfl
    | err e => rfl
    | crash m => rfl

/-- Claim C6: when the global_table_spec flag is set, the column-spec loop
of `QueryResult::decode` consumes exactly the bytes of one (name, type)
pair per column — no table-spec bytes at all, the single TableSpec having
been decoded once before the loop and passed in — and every produced
ColumnSpec carries that same TableSpec; when the flag is clear, the loop
decodes one TableSpec per column, exactly as the spec-side per-column
loop does. -/
theorem c6_global_table_spec_shared (g : TableSpec) (n : Nat) (s : List Nat) :
    (decodeColumnSpecsLoop true (some g) n s =
      (Outcome.map (List.map (fun p => (⟨g, p.1, p.2⟩ : ColumnSpec)))
        (specNameTypePairsLoop n s).1,
       (specNameTypePairsLoop n s).2)) ∧
    decodeColumnSpecsLoop false none n s = specTableSpecPerColumnLoop n s :=
  ⟨c6_aux_global g n s, c6_aux_per_column n s⟩

/-- Claim C6 (witness): the loop equivalences at a concrete two-column
stream with the shared table spec. -/
theorem c6_global_table_spec_shared_witness :
    (decodeColumnSpecsLoop true (some ⟨[107], [116]⟩) 2
        ([0, 1, 97, 0, 9] ++ [0, 1, 98, 0, 13]) =
      (Outcome.map (List.map (fun p => (⟨⟨[107], [116]⟩, p.1, p.2⟩ : ColumnSpec)))
        (specNameTypePairsLoop 2 ([0, 1, 97, 0, 9] ++ [0, 1, 98, 0, 13])).1,
       (specNameTypePairsLoop 2 ([0, 1, 97, 0, 9] ++ [0, 1, 98, 0, 13])).2)) ∧
    decodeColumnSpecsLoop false none 2 ([0, 1, 97, 0, 9] ++ [0, 1, 98, 0, 13]) =
      specTableSpecPerColumnLoop 2 ([0, 1, 97, 0, 9] ++ [0, 1, 98, 0, 13]) :=
  c6_global_table_spec_shared ⟨[107], [116]⟩ 2 ([0, 1, 97, 0, 9] ++ [0, 1, 98, 0, 13])

/-- Claim C7 (counterexample): a Rows frame whose declared body length is
one byte more than the bytes the body decode actually consumes (kind Rows,
flags 0, zero columns, zero rows, then one extra byte 0xAA) decodes
successfully; the trailing body byte is silently discarded rather than
being a protocol error. -/
theorem c7_trailing_body_bytes_ignored :
    QueryResult.decode ([0x83, 0, 0, 0, 8, 0, 0, 0, 17] ++
        [0, 0, 0, 2, 0, 0, 0, 0, 0, 0, 0, 0, 0, 0, 0, 0, 0xAA]) =
      (.ok ⟨⟨Version.Response, ⟨false, false⟩, 0, Opcode.Result, 17⟩, ResultKind.Rows,
        ⟨false, false, false⟩, none, []⟩, []) := by
  decide

/-- Claim C7 (amended): result decode reads exactly header.length bytes
from the transport as the body, and a transport holding fewer bytes than
declared makes the decode fail with an I/O error; but within the body the
declared length is not enforced against actual consumption — a body
shorter than its own fields fails with an I/O (not protocol) error from
the body cursor, and trailing unconsumed body bytes are silently ignored
(see the counterexample), not reported as a protocol error. -/
theorem c7_body_length_behaviour :
    (∀ (s s1 : List Nat) (h : Header),
      Header.decode s = (.ok h, s1) → s1.length < h.length →
      QueryResult.decode s = (.err .Io, [])) ∧
    QueryResult.decode ([0x83, 0, 0, 0, 8, 0, 0, 0, 4] ++ [0, 0, 0, 2]) =
      (.err MyError.Io, []) := by
  constructor
  · intro s s1 h hdec hlen
    simp only [QueryResult.decode, M.bind_apply, hdec]
    simp only [readExact]
    rw [if_neg (by omega)]
  · decide

/-- Claim C7 (witness): the short-transport conjunct at a concrete frame
declaring a 4-byte body over a transport holding only 2 more bytes. -/
theorem c7_body_length_behaviour_witness :
    QueryResult.decode [0x83, 0, 0, 0, 8, 0, 0, 0, 4, 0, 0] = (.err .Io, []) :=
  c7_body_length_behaviour.1 _ [0, 0] ⟨Version.Response, ⟨false, false⟩, 0, Opcode.Result, 4⟩
    (by decide) (by decide)

/-- Claim C9 (counterexample): a 2-byte buffer parsed as i32, an empty
buffer parsed as bool, and a non-UTF-8 buffer parsed as String do not
yield recoverable malformed-data errors: each parse panics (assert,
out-of-bounds index, unwrap), terminating the process. -/
theorem c9_parse_mismatch_panics :
    i32Parse [0, 1] = .crash "assertion failed: buf.len() == 4" ∧
    boolParse [] = .crash "index out of bounds: the len is 0 but the index is 0" ∧
    stringParse [0xFF] = .crash "called Result::unwrap on an Err value" := by
  decide

/-- Claim C9 (amended): a column payload that does not match the on-wire
encoding of the requested native type makes the value conversion panic —
a process-terminating failure, not a recoverable error and not a value:
i32 parsing panics on every buffer whose length is not 4, bool parsing
panics on the empty buffer, and String parsing panics on every buffer
that is not valid UTF-8. -/
theorem c9_parse_mismatch_behaviour :
    (∀ buf : List Nat, buf.length ≠ 4 →
      i32Parse buf = .crash "assertion failed: buf.len() == 4") ∧
    boolParse [] = .crash "index out of bounds: the len is 0 but the index is 0" ∧
    (∀ buf : List Nat, validUtf8 buf = false →
      stringParse buf = .crash "called Result::unwrap on an Err value") := by
  refine ⟨?_, rfl, ?_⟩
  · intro buf h
    rcases buf with _ | ⟨b0, _ | ⟨b1, _ | ⟨b2, _ | ⟨b3, _ | ⟨b4, t⟩⟩⟩⟩⟩ <;>
      first
      | rfl
      | (exfalso; simp at h)
  · intro buf h
    simp [stringParse, h]

/-- Claim C9 (witness): the amended statement at concrete buffers. -/
theorem c9_parse_mismatch_behaviour_witness :
    i32Parse [1, 2, 3] = .crash "assertion failed: buf.len() == 4" ∧
    stringParse [0xC0] = .crash "called Result::unwrap on an Err value" :=
  ⟨c9_parse_mismatch_behaviour.1 [1, 2, 3] (by decide),
   c9_parse_mismatch_behaviour.2.2 [0xC0] (by decide)⟩

/-- Claim C10: `Row::get` requires the requested column to be present:
when the name is absent from the row the unwrapped lookup panics rather
than returning None, and the call returns None exactly when the column is
present with an empty stored payload. -/
theorem c10_row_get_requires_presence {α : Type} (parse : List Nat → Outcome α)
    (row : Row) (col : WireStr) :
    (hmLookup col row.columns = none →
      Row.get parse row col = .crash "called Option::unwrap on a None value") ∧
    (Row.get parse row col = .ok none ↔ hmLookup col row.columns = some []) := by
  constructor
  · intro h
    simp [Row.get, h]
  · cases hl : hmLookup col row.columns with
    | none => simp [Row.get, hl]
    | some bytes =>
      rcases bytes with _ | ⟨b, t⟩
      · simp [Row.get, hl]
      · simp only [Row.get, hl, List.length_cons]
        rw [if_pos (by omega)]
        cases hp : parse (b :: t) <;> simp [Outcome.map]

/-- Claim C10 (witness): a row holding one column named "a" with an empty
payload — asking for the absent "b" panics, asking for "a" returns None. -/
theorem c10_row_get_requires_presence_witness :
    Row.get boolParse ⟨[([97], [])]⟩ [98] = .crash "called Option::unwrap on a None value" ∧
    Row.get boolParse ⟨[([97], [])]⟩ [97] = .ok none :=
  ⟨(c10_row_get_requires_presence boolParse ⟨[([97], [])]⟩ [98]).1 (by decide),
   (c10_row_get_requires_presence boolParse ⟨[([97], [])]⟩ [97]).2.mpr (by decide)⟩

theorem hmInsert_map_fst (k : WireStr) (v : List Nat) (l : List (WireStr × List Nat)) :
    (hmInsert k v l).map Prod.fst =
      if k ∈ l.map Prod.fst then l.map Prod.fst else l.map Prod.fst ++ [k] := by
  induction l with
  | nil => simp [hmInsert]
  | cons p t ih =>
    rcases p with ⟨k1, v1⟩
    by_cases hk : k1 = k
    · subst hk
      simp [hmInsert]
    · have hne : ¬(k = k1) := fun h => hk h.symm
      simp only [hmInsert, if_neg hk, List.map_cons, ih, List.mem_cons, hne, false_or]
      by_cases hm : k ∈ t.map Prod.fst
      · simp [hm]
      · simp [hm]

theorem hmInsert_nodup (k : WireStr) (v : List Nat) (l : List (WireStr × List Nat))
    (h : (l.map Prod.fst).Nodup) : ((hmInsert k v l).map Prod.fst).Nodup := by
  rw [hmInsert_map_fst]
  by_cases hm : k ∈ l.map Prod.fst
  · simpa [hm] using h
  · simp only [hm, if_false]
    refine List.Nodup.append h (List.nodup_singleton k) ?_
    intro a ha hb
    simp only [List.mem_singleton] at hb
    subst hb
    exact hm ha

theorem hmInsert_mem_fst (k : WireStr) (v : List Nat) (l : List (WireStr × List Nat))
    (x : WireStr) (hx : x ∈ (hmInsert k v l).map Prod.fst) :
    x = k ∨ x ∈ l.map Prod.fst := by
  rw [hmInsert_map_fst] at hx
  by_cases hm : k ∈ l.map Prod.fst
  · simp only [hm, if_true] at hx
    exact .inr hx
  · simp only [hm, if_false, List.mem_append, List.mem_singleton] at hx
    exact hx.symm

theorem c8_aux (specs : List ColumnSpec) :
    ∀ (acc : List (WireStr × List Nat)) (s s1 : List Nat) (r : List (WireStr × List Nat)),
      decodeRowColumns acc specs s = (.ok r, s1) → (acc.map Prod.fst).Nodup →
      ((r.map Prod.fst).Nodup ∧
        ∀ x ∈ r.map Prod.fst, x ∈ acc.map Prod.fst ∨ x ∈ specs.map ColumnSpec.name) := by
  induction specs with
  | nil =>
    intro acc s s1 r hdec hacc
    simp only [decodeRowColumns, M.pure_apply] at hdec
    cases hdec
    exact ⟨hacc, fun x hx => .inl hx⟩
  | cons spec rest ih =>
    intro acc s s1 r hdec hacc
    simp only [decodeRowColumns, M.bind_apply] at hdec
    rcases hri : readI32 s with ⟨o, sA⟩
    rw [hri] at hdec
    cases o with
    | ok size =>
      dsimp only at hdec
      by_cases hs0 : (0 : Int) < size
      · rw [if_pos hs0] at hdec
        simp only [M.bind_apply] at hdec
        rcases hre : readExact size.toNat sA with ⟨o2, sB⟩
        rw [hre] at hdec
        cases o2 with
        | ok bytes =>
          dsimp only at hdec
          have hrec := ih (hmInsert spec.name bytes acc) sB s1 r hdec
            (hmInsert_nodup _ _ _ hacc)
          refine ⟨hrec.1, fun x hx => ?_⟩
          rcases hrec.2 x hx with hmem | hmem
          · rcases hmInsert_mem_fst _ _ _ _ hmem with h | h
            · right
              simp [h]
            · left
              exact h
          · right
            simp only [List.map_cons, List.mem_cons]
            exact .inr hmem
        | err e => simp at hdec
        | crash m => simp at hdec
      · rw [if_neg hs0] at hdec
        have hrec := ih (hmInsert spec.name [] acc) sA s1 r hdec
          (hmInsert_nodup _ _ _ hacc)
        refine ⟨hrec.1, fun x hx => ?_⟩
        rcases hrec.2 x hx with hmem | hmem
        · rcases hmInsert_mem_fst _ _ _ _ hmem with h | h
          · right
            simp [h]
          · left
            exact h
        · right
          simp only [List.map_cons, List.mem_cons]
          exact .inr hmem
    | err e => simp at hdec
    | crash m => simp at hdec

theorem c8_aux_rows (specs : List ColumnSpec) (n : Nat) :
    ∀ (s s1 : List Nat) (rows : List Row),
      decodeRowsLoop specs n s = (.ok rows, s1) →
      ∀ row ∈ rows, ((row.columns.map Prod.fst).Nodup ∧
        ∀ x ∈ row.columns.map Prod.fst, x ∈ specs.map ColumnSpec.name) := by
  induction n with
  | zero =>
    intro s s1 rows hdec row hrow
    simp only [decodeRowsLoop, M.pure_apply] at hdec
    cases hdec
    simp at hrow
  | succ n ih =>
    intro s s1 rows hdec row hrow
    simp only [decodeRowsLoop, M.bind_apply] at hdec
    rcases hc : decodeRowColumns [] specs s with ⟨o, sA⟩
    rw [hc] at hdec
    cases o with
    | ok cols =>
      dsimp only at hdec
      rcases hr : decodeRowsLoop specs n sA with ⟨o2, sB⟩
      rw [hr] at hdec
      cases o2 with
      | ok tailRows =>
        dsimp only at hdec
        cases hdec
        rcases List.mem_cons.mp hrow with hrow1 | hrow1
        · subst hrow1
          have := c8_aux specs [] s sA cols hc (by simp)
          refine ⟨this.1, fun x hx => ?_⟩
          rcases this.2 x hx with h | h
          · simp at h
          · exact h
        · exact ih sA _ tailRows hr row hrow1
      | err e => simp at hdec
      | crash m => simp at hdec
    | err e => simp at hdec
    | crash m => simp at hdec

/-- Claim C8 (counterexample): a Rows frame whose two column specs share
the duplicated name "a" decodes to a single row holding only one entry:
the payload of the second column overwrote the payload of the first, and
the row has one entry where the column spec list has two, so the row does
not contain one entry per column spec in the order of the spec list. -/
theorem c8_duplicate_column_name_collapses :
    QueryResult.decode ([0x83, 0, 0, 0, 8, 0, 0, 0, 48] ++
      ([0, 0, 0, 2] ++ [0, 0, 0, 1] ++ [0, 0, 0, 2] ++ [0, 1, 107] ++ [0, 1, 116] ++
       [0, 1, 97] ++ [0, 9] ++ [0, 1, 97] ++ [0, 9] ++ [0, 0, 0, 1] ++
       [0, 0, 0, 4, 0, 0, 0, 1] ++ [0, 0, 0, 4, 0, 0, 0, 2])) =
      (.ok ⟨⟨Version.Response, ⟨false, false⟩, 0, Opcode.Result, 48⟩, ResultKind.Rows,
        ⟨true, false, false⟩, some ⟨[107], [116]⟩, [⟨[([97], [0, 0, 0, 2])]⟩]⟩, []) ∧
    (decodeColumnSpecsLoop true (some ⟨[107], [116]⟩) 2
        ([0, 1, 97] ++ [0, 9] ++ [0, 1, 97] ++ [0, 9])).1 =
      .ok [⟨⟨[107], [116]⟩, [97], CQLType.Int⟩, ⟨⟨[107], [116]⟩, [97], CQLType.Int⟩] := by
  exact ⟨by decide, by decide⟩

/-- Claim C8 (amended): every row produced by the row loop of
`QueryResult::decode` is a mapping from column name to opaque byte payload
whose names are unique and drawn from the decoded column spec list; the
columns live in a HashMap, so no iteration order is guaranteed, and a
column name duplicated in the spec list collapses to a single entry whose
payload is that of the last duplicate (see the counterexample) instead of
one entry per spec in spec-list order. -/
theorem c8_row_names_unique (specs : List ColumnSpec) (n : Nat) (s s1 : List Nat)
    (rows : List Row) (hdec : decodeRowsLoop specs n s = (.ok rows, s1))
    (row : Row) (hrow : row ∈ rows) :
    (row.columns.map Prod.fst).Nodup ∧
      ∀ x ∈ row.columns.map Prod.fst, x ∈ specs.map ColumnSpec.name :=
  c8_aux_rows specs n s s1 rows hdec row hrow

/-- Claim C8 (witness): the amended statement at a one-column, one-row
decode. -/
theorem c8_row_names_unique_witness :
    ((⟨[([97], [])]⟩ : Row).columns.map Prod.fst).Nodup ∧
      ∀ x ∈ (⟨[([97], [])]⟩ : Row).columns.map Prod.fst,
        x ∈ [(⟨⟨[107], [116]⟩, [97], CQLType.Int⟩ : ColumnSpec)].map ColumnSpec.name :=
  c8_row_names_unique [⟨⟨[107], [116]⟩, [97], CQLType.Int⟩] 1 [0, 0, 0, 0] []
    [⟨[([97], [])]⟩] (by decide) ⟨[([97], [])]⟩ (by simp)
